import Mathlib

/-!
Verification development for `sync_docker_images.py`, a script that walks a
source Docker registry's catalog, compares per-(image, tag) manifest digests
between a source and a target registry, classifies each pair, and accumulates
an ordered report of records with remediation command templates.

The Python script is embedded shallowly:

* a registry's observable behaviour (catalog JSON, tag-list JSON, manifest
  responses) is modelled as data; an HTTP call that raises an exception in
  Python (timeout, connection error) is the `transportError` case;
* the per-record dictionary built in the main loop becomes the structure
  `ReconciliationRecord`; the digest strings are kept exactly as the script
  keeps them (the empty string is the script's encoding of "no digest");
* the script's top-level loop becomes `runSync`, returning `Except`: an
  uncaught Python exception or an explicit `exit(1)` is an `Except.error`
  (the CSV file and dry-run output are only produced after the loop, so an
  abort mid-loop produces no report at all).

Credential handling, docker login, the CSV serialisation format and the
non-dry-run executor are outside the claims and are not modelled.
-/

/-- Source line 15: the three status messages, indexed 0/1/2. -/
def image_status : List String :=
  ["Image doesn't exist on target",
   "Image already present on target",
   "Conflict: same tag exist in both registries with different digest"]

/-- One entry of the `images` list (source lines 119-134); the header row
(source lines 20-31) uses the same shape. -/
structure ReconciliationRecord where
  image : String
  tag : String
  source_digest : String
  target_digest : String
  status : String
  pull_command : String
  retag_command : String
  push_command : String
  cleanup_source : String
  cleanup_target : String
deriving DecidableEq, Repr

/-- Source lines 20-31: the first entry of the `images` list, the CSV header. -/
def headerRecord : ReconciliationRecord :=
  { image := "Image", tag := "Tag",
    source_digest := "Source digest", target_digest := "Target digest",
    status := "Status",
    pull_command := "Pull command", retag_command := "Retag command",
    push_command := "Push command",
    cleanup_source := "Cleanup source image",
    cleanup_target := "Cleanup target image" }

/-- Source lines 124-129: the `if not target_digest / elif ... / elif ...`
chain assigning `image_info['status']`. Python's `not s` on a string tests
emptiness, so the empty string plays the role of an absent digest. The chain
has no final `else`, so the result is an `Option`: `none` would mean the
`status` key is never assigned. -/
def statusFor (source_digest target_digest : String) : Option String :=
  if target_digest = "" then some (image_status.getD 0 "")
  else if source_digest = target_digest then some (image_status.getD 1 "")
  else if source_digest ≠ target_digest then some (image_status.getD 2 "")
  else none

/-- The spec's `DigestObservation`: `Present(digest)` or `Absent`. -/
inductive DigestObservation where
  | Absent : DigestObservation
  | Present (d : String) : DigestObservation
deriving DecidableEq, Repr

/-- The spec's status enumeration {MissingOnTarget, InSync, Conflict}. -/
inductive SpecStatus where
  | MissingOnTarget : SpecStatus
  | InSync : SpecStatus
  | Conflict : SpecStatus
deriving DecidableEq, Repr

/-- Modelled from the spec's words (§4.3), for comparison with the code:
first-match classification rule — target Absent first, then equal present
digests, otherwise Conflict. -/
def specClassify : DigestObservation → DigestObservation → SpecStatus
  | _, .Absent => .MissingOnTarget
  | .Present d1, .Present d2 => if d1 = d2 then .InSync else .Conflict
  | .Absent, .Present _ => .Conflict

/-- The status message the script stores for each spec-level status. -/
def specStatusName : SpecStatus → String
  | .MissingOnTarget => image_status.getD 0 ""
  | .InSync => image_status.getD 1 ""
  | .Conflict => image_status.getD 2 ""

/-- Abstraction map from the script's digest strings to the spec's
observations: the script encodes "no digest" as the empty string
(source lines 105-110). -/
def obsOfString (s : String) : DigestObservation :=
  if s = "" then .Absent else .Present s

theorem statusFor_eq_specClassify (s t : String) :
    statusFor s t = some (specStatusName (specClassify (obsOfString s) (obsOfString t))) := by
  by_cases ht : t = ""
  · subst ht; simp [statusFor, obsOfString, specClassify, specStatusName]
  · by_cases hs : s = ""
    · subst hs
      simp [statusFor, obsOfString, specClassify, specStatusName, ht, Ne.symm ht]
    · by_cases hst : s = t
      · subst hst; simp [statusFor, obsOfString, specClassify, specStatusName, ht]
      · simp [statusFor, obsOfString, specClassify, specStatusName, ht, hs, hst]

/-- C1: for every pair of digest observations the program can hold (a digest
string per side, the empty string encoding Absent), the status assigned at
source lines 124-129 is exactly the spec's first-match rule: target Absent
gives MissingOnTarget; both present and equal gives InSync; otherwise
(present and unequal, or source Absent with target Present) gives Conflict. -/
theorem classify_matches_spec (s t : String) :
    statusFor s t = some (specStatusName (specClassify (obsOfString s) (obsOfString t))) :=
  statusFor_eq_specClassify s t

/-- C7: the classification at source lines 124-129 is deterministic and
total — for every input pair of digest strings it assigns exactly one status,
and that status is one of the three messages of `image_status` (the script's
spellings of MissingOnTarget, InSync, Conflict). Although the `elif` chain
has no final `else`, the `none` branch is unreachable. -/
theorem classify_total (s t : String) :
    ∃ st, statusFor s t = some st ∧ st ∈ image_status ∧
      ∀ st2, statusFor s t = some st2 → st2 = st := by
  refine ⟨specStatusName (specClassify (obsOfString s) (obsOfString t)),
    statusFor_eq_specClassify s t, ?_, ?_⟩
  · cases specClassify (obsOfString s) (obsOfString t) <;>
      simp [specStatusName, image_status]
  · intro st2 h2
    have h1 := statusFor_eq_specClassify s t
    rw [h1] at h2
    exact (Option.some.injEq _ _ ▸ h2).symm ▸ rfl

/-- Concrete instance of `classify_total` at a sample input pair. -/
theorem classify_total_witness :
    ∃ st, statusFor "sha256:aaa" "sha256:bbb" = some st ∧ st ∈ image_status ∧
      ∀ st2, statusFor "sha256:aaa" "sha256:bbb" = some st2 → st2 = st :=
  classify_total "sha256:aaa" "sha256:bbb"

/-- The character sequence of the regular expression's literal part: the
script strips schemes with `re.sub(".*://", "", registry)` (source
lines 113-114). -/
def schemeMarker : List Char := [':', '/', '/']

/-- Does the marker occur as a prefix of the list? (Embedding helper for the
greedy regex match.) -/
def matchesAt : List Char → List Char → Bool
  | [], _ => true
  | _ :: _, [] => false
  | m :: ms, c :: cs => m == c && matchesAt ms cs

/-- The suffix after the rightmost occurrence of the marker, if any.
`re.sub(".*://", "", s)` with a greedy `.*` deletes everything up to and
including the last `://` of the (newline-free) string; registry addresses
contain no newline, so this is the script's behaviour. -/
def afterLast (m : List Char) : List Char → Option (List Char)
  | [] => none
  | c :: cs =>
    match afterLast m cs with
    | some r => some r
    | none => if matchesAt m (c :: cs) then some ((c :: cs).drop m.length) else none

/-- Does the marker occur anywhere in the list? -/
def hasMarker (m : List Char) : List Char → Bool
  | [] => false
  | c :: cs => matchesAt m (c :: cs) || hasMarker m cs

/-- Source lines 113-114: `re.sub(".*://", "", registry)`. -/
def stripScheme (s : String) : String :=
  match afterLast schemeMarker s.data with
  | some r => ⟨r⟩
  | none => s

theorem afterLast_none (m cs : List Char) (h : hasMarker m cs = false) :
    afterLast m cs = none := by
  induction cs with
  | nil => rfl
  | cons c cs ih =>
    rw [hasMarker, Bool.or_eq_false_iff] at h
    simp [afterLast, ih h.2, h.1]

theorem matchesAt_self_append (m rest : List Char) :
    matchesAt m (m ++ rest) = true := by
  induction m with
  | nil => rfl
  | cons c cs ih => simp [matchesAt, ih]

theorem afterLast_marker_start (host : List Char)
    (h : hasMarker schemeMarker host = false) :
    afterLast schemeMarker (schemeMarker ++ host) = some host := by
  have h0 : afterLast schemeMarker host = none := afterLast_none _ _ h
  have e1 : ((':' : Char) == '/') = false := by decide
  have d0 : List.drop schemeMarker.length (':' :: '/' :: '/' :: host) = host := rfl
  show afterLast schemeMarker (':' :: '/' :: '/' :: host) = some host
  simp [afterLast, matchesAt, h0, e1, d0]

theorem afterLast_append (xs host : List Char)
    (h : hasMarker schemeMarker host = false) :
    afterLast schemeMarker (xs ++ (schemeMarker ++ host)) = some host := by
  induction xs with
  | nil => rw [List.nil_append]; exact afterLast_marker_start host h
  | cons c cs ih => rw [List.cons_append]; simp [afterLast, ih]

/-- Scheme stripping on an address of the form `scheme://host` yields `host`,
provided `host` itself contains no `://`. -/
theorem stripScheme_append (scheme host : String)
    (h : hasMarker schemeMarker host.data = false) :
    stripScheme (scheme ++ "://" ++ host) = host := by
  have e : (scheme ++ "://" ++ host).data = scheme.data ++ (schemeMarker ++ host.data) := by
    simp [String.data_append, schemeMarker]
  rw [stripScheme, e, afterLast_append _ _ h]

/-- Source lines 112-134: construction of one record of the `images` list,
for one (image, tag) identity, given the two digest strings resolved from
the manifest responses. The script stores all five command templates on
every record, whatever the status. -/
def mkRecord (source_registry target_registry image tag source_digest target_digest : String) :
    ReconciliationRecord :=
  let source_registry_plain := stripScheme source_registry
  let target_registry_plain := stripScheme target_registry
  let source_image := source_registry_plain ++ "/" ++ image ++ ":" ++ tag
  let target_image := target_registry_plain ++ "/" ++ image ++ ":" ++ tag
  { image := image, tag := tag,
    source_digest := source_digest, target_digest := target_digest,
    status := (statusFor source_digest target_digest).getD "",
    pull_command := "docker pull " ++ source_image,
    retag_command := "docker tag " ++ source_image ++ " " ++ target_image,
    push_command := "docker push " ++ target_image,
    cleanup_source := "docker rmi " ++ source_image,
    cleanup_target := "docker rmi " ++ target_image }

/-- Source lines 158-165: the dry-run printer emits the five transfer
commands of a record exactly when its status is `image_status[0]`
("Image doesn't exist on target"), and nothing for the other statuses. -/
def transferSteps (r : ReconciliationRecord) : List String :=
  if r.status = image_status.getD 0 "" then
    [r.pull_command, r.retag_command, r.push_command, r.cleanup_source, r.cleanup_target]
  else []

/-- C2: for every processed identity, what the dry-run printer actually
emits (source lines 158-165) is exactly the five ordered transfer steps —
retrieve-from-source (`docker pull`), relabel-for-target (`docker tag`),
publish-to-target (`docker push`), remove-local-source-copy and
remove-local-target-copy (`docker rmi`) — when the record's status is
MissingOnTarget, and zero transfer steps when the status is InSync or
Conflict. -/
theorem plan_steps_by_status (srcUrl tgtUrl image tag sd td : String) :
    ((mkRecord srcUrl tgtUrl image tag sd td).status = specStatusName .MissingOnTarget →
        transferSteps (mkRecord srcUrl tgtUrl image tag sd td) =
          ["docker pull " ++ (stripScheme srcUrl ++ "/" ++ image ++ ":" ++ tag),
           "docker tag " ++ (stripScheme srcUrl ++ "/" ++ image ++ ":" ++ tag) ++ " " ++
             (stripScheme tgtUrl ++ "/" ++ image ++ ":" ++ tag),
           "docker push " ++ (stripScheme tgtUrl ++ "/" ++ image ++ ":" ++ tag),
           "docker rmi " ++ (stripScheme srcUrl ++ "/" ++ image ++ ":" ++ tag),
           "docker rmi " ++ (stripScheme tgtUrl ++ "/" ++ image ++ ":" ++ tag)] ∧
        (transferSteps (mkRecord srcUrl tgtUrl image tag sd td)).length = 5) ∧
    (((mkRecord srcUrl tgtUrl image tag sd td).status = specStatusName .InSync ∨
        (mkRecord srcUrl tgtUrl image tag sd td).status = specStatusName .Conflict) →
        transferSteps (mkRecord srcUrl tgtUrl image tag sd td) = []) := by
  have ne1 : specStatusName .InSync ≠ image_status.getD 0 "" := by decide
  have ne2 : specStatusName .Conflict ≠ image_status.getD 0 "" := by decide
  constructor
  · intro h
    have e : transferSteps (mkRecord srcUrl tgtUrl image tag sd td) =
        [(mkRecord srcUrl tgtUrl image tag sd td).pull_command,
         (mkRecord srcUrl tgtUrl image tag sd td).retag_command,
         (mkRecord srcUrl tgtUrl image tag sd td).push_command,
         (mkRecord srcUrl tgtUrl image tag sd td).cleanup_source,
         (mkRecord srcUrl tgtUrl image tag sd td).cleanup_target] := by
      rw [transferSteps, if_pos (by rw [h]; rfl)]
    refine ⟨?_, by rw [e]; rfl⟩
    rw [e]; simp [mkRecord]
  · rintro (h | h)
    · rw [transferSteps, if_neg (by rw [h]; exact ne1)]
    · rw [transferSteps, if_neg (by rw [h]; exact ne2)]

/-- Concrete instance of `plan_steps_by_status`: the three digest situations
of the spec's scenarios (target absent, equal digests, unequal digests). -/
theorem plan_steps_by_status_witness :
    (transferSteps (mkRecord "https://s.example.com" "https://t.example.com"
        "app" "v1" "sha256:aaa" "")).length = 5 ∧
    transferSteps (mkRecord "https://s.example.com" "https://t.example.com"
        "app" "v1" "sha256:aaa" "sha256:aaa") = [] ∧
    transferSteps (mkRecord "https://s.example.com" "https://t.example.com"
        "app" "v1" "sha256:aaa" "sha256:bbb") = [] :=
  ⟨((plan_steps_by_status "https://s.example.com" "https://t.example.com"
      "app" "v1" "sha256:aaa" "").1 (by decide)).2,
   (plan_steps_by_status "https://s.example.com" "https://t.example.com"
      "app" "v1" "sha256:aaa" "sha256:aaa").2 (Or.inl (by decide)),
   (plan_steps_by_status "https://s.example.com" "https://t.example.com"
      "app" "v1" "sha256:aaa" "sha256:bbb").2 (Or.inr (by decide))⟩

/-- C8: for registry addresses of the form `scheme://host` (the host itself
containing no `://`), every command template embeds the scheme-stripped
image reference `host/repository:tag` (source lines 113-116 and 130-134). -/
theorem commands_strip_scheme (srcScheme srcHost tgtScheme tgtHost image tag sd td : String)
    (h1 : hasMarker schemeMarker srcHost.data = false)
    (h2 : hasMarker schemeMarker tgtHost.data = false) :
    (mkRecord (srcScheme ++ "://" ++ srcHost) (tgtScheme ++ "://" ++ tgtHost)
        image tag sd td).pull_command
        = "docker pull " ++ (srcHost ++ "/" ++ image ++ ":" ++ tag) ∧
    (mkRecord (srcScheme ++ "://" ++ srcHost) (tgtScheme ++ "://" ++ tgtHost)
        image tag sd td).retag_command
        = "docker tag " ++ (srcHost ++ "/" ++ image ++ ":" ++ tag) ++ " " ++
            (tgtHost ++ "/" ++ image ++ ":" ++ tag) ∧
    (mkRecord (srcScheme ++ "://" ++ srcHost) (tgtScheme ++ "://" ++ tgtHost)
        image tag sd td).push_command
        = "docker push " ++ (tgtHost ++ "/" ++ image ++ ":" ++ tag) ∧
    (mkRecord (srcScheme ++ "://" ++ srcHost) (tgtScheme ++ "://" ++ tgtHost)
        image tag sd td).cleanup_source
        = "docker rmi " ++ (srcHost ++ "/" ++ image ++ ":" ++ tag) ∧
    (mkRecord (srcScheme ++ "://" ++ srcHost) (tgtScheme ++ "://" ++ tgtHost)
        image tag sd td).cleanup_target
        = "docker rmi " ++ (tgtHost ++ "/" ++ image ++ ":" ++ tag) := by
  have e1 := stripScheme_append srcScheme srcHost h1
  have e2 := stripScheme_append tgtScheme tgtHost h2
  refine ⟨?_, ?_, ?_, ?_, ?_⟩ <;> simp [mkRecord, e1, e2]

/-- Concrete instance of `commands_strip_scheme`: source and target
`https://…example.com`, identity (app, v1): the publish step references
`target.example.com/app:v1`. -/
theorem commands_strip_scheme_witness :
    (mkRecord ("https" ++ "://" ++ "source.example.com")
        ("https" ++ "://" ++ "target.example.com")
        "app" "v1" "sha256:aaa" "").push_command
      = "docker push target.example.com/app:v1" := by
  have h := (commands_strip_scheme "https" "source.example.com" "https" "target.example.com"
    "app" "v1" "sha256:aaa" "" (by decide) (by decide)).2.2.1
  exact h.trans (by decide)

/-- A manifest response as the script sees it (source lines 103-110): an
HTTP status code and the optional `Docker-Content-Digest` header value.
The script never reads the status code. -/
structure ManifestResponse where
  statusCode : Nat
  digestHeader : Option String
deriving DecidableEq, Repr

/-- Source lines 105-110: `digest = ""` then overwritten with the header
value when the `Docker-Content-Digest` header is in the response. -/
def resolveDigest (r : ManifestResponse) : String :=
  match r.digestHeader with
  | some d => d
  | none => ""

/-- C6 counterexample: a response that does carry the `Docker-Content-Digest`
header, with the empty string as value, does not yield a Present observation:
the script's resolution (source lines 105-110) produces the very same digest
string as a response without the header, and downstream that string is the
Absent encoding. So "Present(digest) exactly when the header is carried /
Absent exactly when it is missing" fails at this input. -/
theorem resolve_header_cex :
    (ManifestResponse.mk 200 (some "")).digestHeader = some "" ∧
    obsOfString (resolveDigest (ManifestResponse.mk 200 (some "")))
      = DigestObservation.Absent ∧
    resolveDigest (ManifestResponse.mk 200 (some ""))
      = resolveDigest (ManifestResponse.mk 404 none) := by
  refine ⟨rfl, by decide, rfl⟩

/-- C6 amended: the resolution yields Present(d) exactly when the response
carries a `Docker-Content-Digest` header with a non-empty value d, regardless
of the HTTP status code (which the script never reads), and yields Absent
when the header is missing or carries the empty value. -/
theorem resolve_header_amended (r : ManifestResponse) :
    (r.digestHeader = none → obsOfString (resolveDigest r) = DigestObservation.Absent) ∧
    (r.digestHeader = some "" → obsOfString (resolveDigest r) = DigestObservation.Absent) ∧
    (∀ d, d ≠ "" → r.digestHeader = some d →
        obsOfString (resolveDigest r) = DigestObservation.Present d) ∧
    (∀ n, resolveDigest { statusCode := n, digestHeader := r.digestHeader } = resolveDigest r) := by
  refine ⟨?_, ?_, ?_, fun n => rfl⟩
  · intro h; simp [resolveDigest, h, obsOfString]
  · intro h; simp [resolveDigest, h, obsOfString]
  · intro d hd h; simp [resolveDigest, h, obsOfString, hd]

/-- Concrete instance of `resolve_header_amended`: a 404 response carrying
the header still resolves to a Present digest. -/
theorem resolve_header_amended_witness :
    obsOfString (resolveDigest (ManifestResponse.mk 404 (some "sha256:aaa")))
      = DigestObservation.Present "sha256:aaa" :=
  (resolve_header_amended (ManifestResponse.mk 404 (some "sha256:aaa"))).2.2.1
    "sha256:aaa" (by decide) rfl

/-- C10: a `Docker-Content-Digest` header that is present with an empty-string
value is handled exactly like an absent header: the resolved digest string is
the same in both cases; an empty target digest yields status MissingOnTarget
with the full five-step transfer plan; an empty source digest together with a
non-empty target digest yields status Conflict. -/
theorem empty_digest_header_value (srcUrl tgtUrl image tag : String)
    (sresp tresp : ManifestResponse) :
    (∀ n m : Nat, resolveDigest { statusCode := n, digestHeader := some "" }
        = resolveDigest { statusCode := m, digestHeader := none }) ∧
    (tresp.digestHeader = some "" →
        (mkRecord srcUrl tgtUrl image tag (resolveDigest sresp) (resolveDigest tresp)).status
            = specStatusName .MissingOnTarget ∧
        (transferSteps (mkRecord srcUrl tgtUrl image tag
            (resolveDigest sresp) (resolveDigest tresp))).length = 5) ∧
    (∀ d, sresp.digestHeader = some "" → tresp.digestHeader = some d → d ≠ "" →
        (mkRecord srcUrl tgtUrl image tag (resolveDigest sresp) (resolveDigest tresp)).status
            = specStatusName .Conflict) := by
  refine ⟨fun n m => rfl, ?_, ?_⟩
  · intro h
    have hd : resolveDigest tresp = "" := by simp [resolveDigest, h]
    have hs : (mkRecord srcUrl tgtUrl image tag
        (resolveDigest sresp) (resolveDigest tresp)).status
        = specStatusName .MissingOnTarget := by
      simp [mkRecord, hd, statusFor, specStatusName]
    refine ⟨hs, ?_⟩
    rw [transferSteps, if_pos (by rw [hs]; rfl)]
    rfl
  · intro d hsrc htgt hd
    have h1 : resolveDigest sresp = "" := by simp [resolveDigest, hsrc]
    have h2 : resolveDigest tresp = d := by simp [resolveDigest, htgt]
    simp [mkRecord, h1, h2, statusFor, hd, Ne.symm hd, specStatusName]

/-- Concrete instance of `empty_digest_header_value`: an empty-valued target
header gives MissingOnTarget; an empty-valued source header against a real
target digest gives Conflict. -/
theorem empty_digest_header_value_witness :
    (mkRecord "https://s.example.com" "https://t.example.com" "app" "v1"
        (resolveDigest (ManifestResponse.mk 200 (some "sha256:aaa")))
        (resolveDigest (ManifestResponse.mk 200 (some "")))).status
      = specStatusName .MissingOnTarget ∧
    (mkRecord "https://s.example.com" "https://t.example.com" "app" "v1"
        (resolveDigest (ManifestResponse.mk 200 (some "")))
        (resolveDigest (ManifestResponse.mk 200 (some "sha256:bbb")))).status
      = specStatusName .Conflict :=
  ⟨((empty_digest_header_value "https://s.example.com" "https://t.example.com" "app" "v1"
      (ManifestResponse.mk 200 (some "sha256:aaa"))
      (ManifestResponse.mk 200 (some ""))).2.1 rfl).1,
   (empty_digest_header_value "https://s.example.com" "https://t.example.com" "app" "v1"
      (ManifestResponse.mk 200 (some ""))
      (ManifestResponse.mk 200 (some "sha256:bbb"))).2.2 "sha256:bbb" rfl rfl (by decide)⟩

/-- Outcome of one HTTP call: either a response, or a raised exception
(timeout, connection error, malformed body where the body is parsed). -/
inductive HttpResult (α : Type) where
  | ok (val : α) : HttpResult α
  | transportError : HttpResult α
deriving DecidableEq, Repr

/-- One entry of a registry error payload (`errors` array of the v2 API),
as read at source lines 70-73. -/
structure ErrorEntry where
  code : String
  message : String
deriving DecidableEq, Repr

/-- The JSON body of the catalog response (source lines 68-74, 97): the
script checks for an `errors` key, then iterates `['repositories']`
(a missing key would raise a `KeyError`). -/
structure CatalogJson where
  errors : Option (List ErrorEntry)
  repositories : Option (List String)
deriving DecidableEq, Repr

/-- Observable behaviour of the source registry: the catalog body, the
tag-list call per repository (its JSON's optional `tags` key, or a raised
transport error), and the manifest call per (repository, tag). -/
structure SourceRegistry where
  catalogJson : CatalogJson
  tagsJson : String → HttpResult (Option (List String))
  manifest : String → String → HttpResult ManifestResponse

/-- Observable behaviour of the target registry: only its manifest call is
used by the main loop. -/
structure TargetRegistry where
  manifest : String → String → HttpResult ManifestResponse

/-- How a run of the script can end before the report is produced. The
script's own `exit(1)` on a catalog error payload is `catalogError`; the
other constructors are uncaught Python exceptions (a raised `requests`
error or a `KeyError`), which also abort with a non-zero exit but are not
handled anywhere in the script. -/
inductive RunError where
  | catalogError (registry code message : String) : RunError
  | tagListFailure (repo : String) : RunError
  | digestLookupCrash (repo tag : String) : RunError
  | missingRepositoriesKey : RunError
deriving DecidableEq, Repr

/-- Source lines 101-135: the inner loop over the tags of one repository.
Each iteration performs the two manifest lookups (an exception in either
aborts the whole run) and appends one record. -/
def processRepoTags (srcUrl tgtUrl : String) (src : SourceRegistry) (tgt : TargetRegistry)
    (image : String) : List String → Except RunError (List ReconciliationRecord)
  | [] => .ok []
  | tag :: rest =>
    match src.manifest image tag with
    | .transportError => .error (.digestLookupCrash image tag)
    | .ok sresp =>
      match tgt.manifest image tag with
      | .transportError => .error (.digestLookupCrash image tag)
      | .ok tresp =>
        match processRepoTags srcUrl tgtUrl src tgt image rest with
        | .error e => .error e
        | .ok rs =>
          .ok (mkRecord srcUrl tgtUrl image tag
                (resolveDigest sresp) (resolveDigest tresp) :: rs)

/-- Source lines 97-135: the outer loop over the repositories of the source
catalog. The tag-list call has no error handling: a raised transport error,
or a body without a `tags` key, is an uncaught exception that aborts the
whole run. -/
def processRepos (srcUrl tgtUrl : String) (src : SourceRegistry) (tgt : TargetRegistry) :
    List String → Except RunError (List ReconciliationRecord)
  | [] => .ok []
  | image :: rest =>
    match src.tagsJson image with
    | .transportError => .error (.tagListFailure image)
    | .ok none => .error (.tagListFailure image)
    | .ok (some tags) =>
      match processRepoTags srcUrl tgtUrl src tgt image tags with
      | .error e => .error e
      | .ok rs =>
        match processRepos srcUrl tgtUrl src tgt rest with
        | .error e => .error e
        | .ok rest2 => .ok (rs ++ rest2)

/-- Source lines 68-74 and 97-135: the whole data-gathering phase. A catalog
error payload exits with the first error's code and message (the `exit(1)`
sits inside the loop over errors); otherwise the `images` list is the header
followed by the records of the main loop. The CSV export and dry-run printer
(lines 138-174) only run after this phase, so an abort produces no report. -/
def runSync (srcUrl tgtUrl : String) (src : SourceRegistry) (tgt : TargetRegistry) :
    Except RunError (List ReconciliationRecord) :=
  match src.catalogJson.errors with
  | some (e :: _) => .error (.catalogError srcUrl e.code e.message)
  | _ =>
    match src.catalogJson.repositories with
    | none => .error .missingRepositoriesKey
    | some repos =>
      match processRepos srcUrl tgtUrl src tgt repos with
      | .error e => .error e
      | .ok recs => .ok (headerRecord :: recs)

/-- The tag list a repository contributes when its tag-list call succeeds
(used to state enumeration order). -/
def tagsOf (src : SourceRegistry) (repo : String) : List String :=
  match src.tagsJson repo with
  | .ok (some ts) => ts
  | _ => []

/-- Catalog enumeration order: repositories in registry order, then tags in
registry order within each repository. -/
def enumIdentities (src : SourceRegistry) (repos : List String) : List (String × String) :=
  repos.flatMap fun r => (tagsOf src r).map fun t => (r, t)

/-- The record the main loop builds for one identity, given the registries'
manifest behaviour (the digest string is the header value, or empty). -/
def recordOf (srcUrl tgtUrl : String) (src : SourceRegistry) (tgt : TargetRegistry)
    (repo tag : String) : ReconciliationRecord :=
  mkRecord srcUrl tgtUrl repo tag
    (match src.manifest repo tag with
     | .ok resp => resolveDigest resp
     | .transportError => "")
    (match tgt.manifest repo tag with
     | .ok resp => resolveDigest resp
     | .transportError => "")

theorem processRepoTags_ok_manifest (srcUrl tgtUrl : String) (src : SourceRegistry)
    (tgt : TargetRegistry) (image : String) (tags : List String)
    (rs : List ReconciliationRecord)
    (h : processRepoTags srcUrl tgtUrl src tgt image tags = .ok rs)
    (tag : String) (hmem : tag ∈ tags) :
    (∃ a, src.manifest image tag = .ok a) ∧ (∃ b, tgt.manifest image tag = .ok b) := by
  induction tags generalizing rs with
  | nil => cases hmem
  | cons t ts ih =>
    rw [processRepoTags] at h
    cases h1 : src.manifest image t with
    | transportError => rw [h1] at h; exact Except.noConfusion h
    | ok sresp =>
      cases h2 : tgt.manifest image t with
      | transportError => rw [h1, h2] at h; exact Except.noConfusion h
      | ok tresp =>
        cases h3 : processRepoTags srcUrl tgtUrl src tgt image ts with
        | error e => rw [h1, h2, h3] at h; exact Except.noConfusion h
        | ok rs2 =>
          rcases List.mem_cons.mp hmem with heq | hmem2
          · subst heq; exact ⟨⟨sresp, h1⟩, ⟨tresp, h2⟩⟩
          · exact ih rs2 h3 hmem2

theorem processRepos_ok_repo (srcUrl tgtUrl : String) (src : SourceRegistry)
    (tgt : TargetRegistry) (repos : List String) (l : List ReconciliationRecord)
    (h : processRepos srcUrl tgtUrl src tgt repos = .ok l)
    (repo : String) (hmem : repo ∈ repos) :
    ∃ ts rs, src.tagsJson repo = .ok (some ts) ∧
      processRepoTags srcUrl tgtUrl src tgt repo ts = .ok rs := by
  induction repos generalizing l with
  | nil => cases hmem
  | cons r rest ih =>
    rw [processRepos] at h
    cases h1 : src.tagsJson r with
    | transportError => rw [h1] at h; exact Except.noConfusion h
    | ok otags =>
      cases otags with
      | none => rw [h1] at h; exact Except.noConfusion h
      | some tags =>
        rw [h1] at h
        simp only [] at h
        cases h2 : processRepoTags srcUrl tgtUrl src tgt r tags with
        | error e => rw [h2] at h; exact Except.noConfusion h
        | ok rs =>
          rw [h2] at h
          cases h3 : processRepos srcUrl tgtUrl src tgt rest with
          | error e => rw [h3] at h; exact Except.noConfusion h
          | ok rest2 =>
            rcases List.mem_cons.mp hmem with heq | hmem2
            · subst heq; exact ⟨tags, rs, h1, h2⟩
            · exact ih rest2 h3 hmem2

/-- When a run completes, every listed repository's tag-list call succeeded
and every manifest call of every enumerated identity succeeded: there is no
skipping in the main loop. -/
theorem runSync_ok_all_calls (srcUrl tgtUrl : String) (src : SourceRegistry)
    (tgt : TargetRegistry) (repos : List String) (recs : List ReconciliationRecord)
    (hr : src.catalogJson.repositories = some repos)
    (h : runSync srcUrl tgtUrl src tgt = .ok recs)
    (repo : String) (hmem : repo ∈ repos) :
    ∃ ts, src.tagsJson repo = .ok (some ts) ∧
      ∀ tag ∈ ts, (∃ a, src.manifest repo tag = .ok a) ∧
        (∃ b, tgt.manifest repo tag = .ok b) := by
  rw [runSync] at h
  split at h
  · exact Except.noConfusion h
  · rw [hr] at h
    simp only [] at h
    cases h3 : processRepos srcUrl tgtUrl src tgt repos with
    | error e => rw [h3] at h; exact Except.noConfusion h
    | ok l =>
      obtain ⟨ts, rs, hts, hrs⟩ := processRepos_ok_repo srcUrl tgtUrl src tgt repos l h3 repo hmem
      exact ⟨ts, hts, fun tag htag =>
        processRepoTags_ok_manifest srcUrl tgtUrl src tgt repo ts rs hrs tag htag⟩

theorem processRepoTags_ok_eq (srcUrl tgtUrl : String) (src : SourceRegistry)
    (tgt : TargetRegistry) (image : String) (tags : List String)
    (rs : List ReconciliationRecord)
    (h : processRepoTags srcUrl tgtUrl src tgt image tags = .ok rs) :
    rs = tags.map fun t => recordOf srcUrl tgtUrl src tgt image t := by
  induction tags generalizing rs with
  | nil =>
    rw [processRepoTags] at h
    cases h
    rfl
  | cons t ts ih =>
    rw [processRepoTags] at h
    cases h1 : src.manifest image t with
    | transportError => rw [h1] at h; exact Except.noConfusion h
    | ok sresp =>
      cases h2 : tgt.manifest image t with
      | transportError => rw [h1, h2] at h; exact Except.noConfusion h
      | ok tresp =>
        rw [h1, h2] at h
        simp only [] at h
        cases h3 : processRepoTags srcUrl tgtUrl src tgt image ts with
        | error e => rw [h3] at h; exact Except.noConfusion h
        | ok rs2 =>
          rw [h3] at h
          simp only [] at h
          cases h
          have e : recordOf srcUrl tgtUrl src tgt image t =
              mkRecord srcUrl tgtUrl image t (resolveDigest sresp) (resolveDigest tresp) := by
            rw [recordOf, h1, h2]
          rw [List.map_cons, ← e, ih rs2 h3]

theorem processRepos_ok_eq (srcUrl tgtUrl : String) (src : SourceRegistry)
    (tgt : TargetRegistry) (repos : List String) (l : List ReconciliationRecord)
    (h : processRepos srcUrl tgtUrl src tgt repos = .ok l) :
    l = (enumIdentities src repos).map fun p => recordOf srcUrl tgtUrl src tgt p.1 p.2 := by
  induction repos generalizing l with
  | nil =>
    rw [processRepos] at h
    cases h
    rfl
  | cons r rest ih =>
    rw [processRepos] at h
    cases h1 : src.tagsJson r with
    | transportError => rw [h1] at h; exact Except.noConfusion h
    | ok otags =>
      cases otags with
      | none => rw [h1] at h; exact Except.noConfusion h
      | some tags =>
        rw [h1] at h
        simp only [] at h
        cases h2 : processRepoTags srcUrl tgtUrl src tgt r tags with
        | error e => rw [h2] at h; exact Except.noConfusion h
        | ok rs =>
          rw [h2] at h
          simp only [] at h
          cases h3 : processRepos srcUrl tgtUrl src tgt rest with
          | error e => rw [h3] at h; exact Except.noConfusion h
          | ok rest2 =>
            rw [h3] at h
            simp only [] at h
            cases h
            have e0 : tagsOf src r = tags := by rw [tagsOf, h1]
            rw [processRepoTags_ok_eq srcUrl tgtUrl src tgt r tags rs h2, ih rest2 h3]
            simp [enumIdentities, e0, List.map_map, Function.comp]

/-- C9: the Report Model is the header record first, then exactly one record
per identity, in catalog enumeration order (registry order of repositories,
then registry order of tags within each repository). The run is a pure
function building this list once; nothing is mutated or removed. -/
theorem run_report_order (srcUrl tgtUrl : String) (src : SourceRegistry)
    (tgt : TargetRegistry) (repos : List String) (recs : List ReconciliationRecord)
    (hr : src.catalogJson.repositories = some repos)
    (h : runSync srcUrl tgtUrl src tgt = .ok recs) :
    recs = headerRecord ::
      (enumIdentities src repos).map fun p => recordOf srcUrl tgtUrl src tgt p.1 p.2 := by
  rw [runSync] at h
  split at h
  · exact Except.noConfusion h
  · rw [hr] at h
    simp only [] at h
    cases h3 : processRepos srcUrl tgtUrl src tgt repos with
    | error e => rw [h3] at h; exact Except.noConfusion h
    | ok l =>
      rw [h3] at h
      simp only [] at h
      cases h
      rw [processRepos_ok_eq srcUrl tgtUrl src tgt repos l h3]

/-- C5: a catalog response with an explicit error payload aborts the whole
run via `exit(1)` (source lines 69-74), with a message naming the source
registry and the payload's first error code and message, before any
reconciliation record is produced. -/
theorem catalog_error_aborts (srcUrl tgtUrl : String) (src : SourceRegistry)
    (tgt : TargetRegistry) (e : ErrorEntry) (rest : List ErrorEntry)
    (h : src.catalogJson.errors = some (e :: rest)) :
    runSync srcUrl tgtUrl src tgt = .error (.catalogError srcUrl e.code e.message) ∧
    ∀ recs, runSync srcUrl tgtUrl src tgt ≠ .ok recs := by
  have h1 : runSync srcUrl tgtUrl src tgt
      = .error (.catalogError srcUrl e.code e.message) := by
    rw [runSync, h]
  exact ⟨h1, fun recs hc => by rw [h1] at hc; exact Except.noConfusion hc⟩

/-- A source registry answering the catalog query with an error payload. -/
def errPayloadSrc : SourceRegistry :=
  { catalogJson := CatalogJson.mk
      (some [ErrorEntry.mk "UNAUTHORIZED" "authentication required"]) none,
    tagsJson := fun _ => .ok none,
    manifest := fun _ _ => .transportError }

/-- A target registry that is never reached. -/
def idleTgt : TargetRegistry :=
  { manifest := fun _ _ => .transportError }

/-- Concrete instance of `catalog_error_aborts`. -/
theorem catalog_error_aborts_witness :
    runSync "https://source.example.com" "https://target.example.com" errPayloadSrc idleTgt
      = .error (.catalogError "https://source.example.com"
          "UNAUTHORIZED" "authentication required") :=
  (catalog_error_aborts "https://source.example.com" "https://target.example.com"
    errPayloadSrc idleTgt
    (ErrorEntry.mk "UNAUTHORIZED" "authentication required") [] rfl).1

/-- A source registry whose first repository's tag-list query raises. -/
def brokenRepoSrc : SourceRegistry :=
  { catalogJson := { errors := none, repositories := some ["broken-repo", "good-repo"] },
    tagsJson := fun r => if r = "broken-repo" then .transportError else .ok (some ["v1"]),
    manifest := fun _ _ => .ok (ManifestResponse.mk 200 (some "sha256:aaa")) }

/-- A target registry with no images. -/
def plainTgt : TargetRegistry :=
  { manifest := fun _ _ => .ok (ManifestResponse.mk 404 none) }

/-- C3 counterexample: with catalog ["broken-repo", "good-repo"] where only
"broken-repo"'s tag-list query fails, the run does not skip the repository
and continue — the unhandled exception at `tags.json()['tags']` (source
lines 99-101) aborts the whole run, so no record is produced for
"good-repo" and no warning is recorded anywhere. -/
theorem tag_list_skip_cex :
    runSync "https://source.example.com" "https://target.example.com" brokenRepoSrc plainTgt
      = .error (.tagListFailure "broken-repo") := by rfl

/-- C3 amended: if any listed repository's tag-list query cannot be
retrieved, the run never completes — it aborts with an unhandled error and
produces no report at all (no records for the remaining repositories, and
no recorded warning). -/
theorem tag_list_failure_no_report (srcUrl tgtUrl : String) (src : SourceRegistry)
    (tgt : TargetRegistry) (repo : String) (repos : List String)
    (hr : src.catalogJson.repositories = some repos)
    (hmem : repo ∈ repos)
    (ht : src.tagsJson repo = .transportError) :
    ∀ recs, runSync srcUrl tgtUrl src tgt ≠ .ok recs := by
  intro recs hc
  obtain ⟨ts, hts, _⟩ := runSync_ok_all_calls srcUrl tgtUrl src tgt repos recs hr hc repo hmem
  rw [ht] at hts
  exact HttpResult.noConfusion hts

/-- A source registry whose second repository's tag-list query raises. -/
def lateBrokenSrc : SourceRegistry :=
  { catalogJson := { errors := none, repositories := some ["good-repo", "broken-repo"] },
    tagsJson := fun r => if r = "broken-repo" then .transportError else .ok (some ["v1"]),
    manifest := fun _ _ => .ok (ManifestResponse.mk 200 (some "sha256:aaa")) }

/-- Concrete instance of `tag_list_failure_no_report`: even with the failing
repository listed second, the run yields no report. -/
theorem tag_list_failure_no_report_witness :
    runSync "https://source.example.com" "https://target.example.com" lateBrokenSrc plainTgt
      ≠ .ok [headerRecord] :=
  tag_list_failure_no_report "https://source.example.com" "https://target.example.com"
    lateBrokenSrc plainTgt "broken-repo" ["good-repo", "broken-repo"]
    rfl (by simp) (by rfl) [headerRecord]

/-- A source registry whose manifest query raises a transport error. -/
def crashManifestSrc : SourceRegistry :=
  { catalogJson := { errors := none, repositories := some ["app"] },
    tagsJson := fun _ => .ok (some ["v1"]),
    manifest := fun _ _ => .transportError }

/-- C4 counterexample: a transport failure during the manifest-digest lookup
of identity (app, v1) does not surface as a per-identity unresolved marker —
the unhandled `requests` exception (source lines 103-104) aborts the whole
run, so the identity's record is not retained and no report is produced. -/
theorem digest_lookup_cex :
    runSync "https://source.example.com" "https://target.example.com" crashManifestSrc plainTgt
      = .error (.digestLookupCrash "app" "v1") := by rfl

/-- C4 amended: a transport failure during either side's manifest-digest
lookup of any enumerated identity prevents the run from completing: no
report (and hence no record with an unresolved marker) is ever produced.
Only a response that arrives without the digest header is folded into the
record — as the empty digest string, i.e. as Absent. -/
theorem digest_lookup_failure_no_report (srcUrl tgtUrl : String) (src : SourceRegistry)
    (tgt : TargetRegistry) (repo tag : String) (repos : List String) (ts : List String)
    (hr : src.catalogJson.repositories = some repos)
    (hmem : repo ∈ repos)
    (hts : src.tagsJson repo = .ok (some ts))
    (htag : tag ∈ ts)
    (hfail : src.manifest repo tag = .transportError ∨
      tgt.manifest repo tag = .transportError) :
    ∀ recs, runSync srcUrl tgtUrl src tgt ≠ .ok recs := by
  intro recs hc
  obtain ⟨ts2, hts2, hall⟩ := runSync_ok_all_calls srcUrl tgtUrl src tgt repos recs hr hc repo hmem
  rw [hts] at hts2
  cases hts2
  obtain ⟨⟨a, ha⟩, ⟨b, hb⟩⟩ := hall tag htag
  rcases hfail with hf | hf
  · rw [hf] at ha; exact HttpResult.noConfusion ha
  · rw [hf] at hb; exact HttpResult.noConfusion hb

/-- A source registry that answers all queries. -/
def okManifestSrc : SourceRegistry :=
  { catalogJson := { errors := none, repositories := some ["app"] },
    tagsJson := fun _ => .ok (some ["v1"]),
    manifest := fun _ _ => .ok (ManifestResponse.mk 200 (some "sha256:aaa")) }

/-- A target registry whose manifest query raises a transport error. -/
def crashTgt : TargetRegistry :=
  { manifest := fun _ _ => .transportError }

/-- Concrete instance of `digest_lookup_failure_no_report`: a target-side
transport failure also yields no report. -/
theorem digest_lookup_failure_no_report_witness :
    runSync "https://source.example.com" "https://target.example.com" okManifestSrc crashTgt
      ≠ .ok [headerRecord] :=
  digest_lookup_failure_no_report "https://source.example.com" "https://target.example.com"
    okManifestSrc crashTgt "app" "v1" ["app"] ["v1"]
    rfl (by simp) rfl (by simp) (Or.inr rfl) [headerRecord]

/-- A fully answering source registry with one repository and two tags. -/
def okSrc : SourceRegistry :=
  { catalogJson := { errors := none, repositories := some ["app"] },
    tagsJson := fun _ => .ok (some ["v1", "v2"]),
    manifest := fun _ t => .ok (ManifestResponse.mk 200 (some ("sha256:" ++ t))) }

/-- A target registry that knows none of the images. -/
def okTgt : TargetRegistry :=
  { manifest := fun _ _ => .ok (ManifestResponse.mk 404 none) }

/-- Concrete instance of `run_report_order`: header first, then (app, v1)
and (app, v2) in enumeration order. -/
theorem run_report_order_witness :
    runSync "https://source.example.com" "https://target.example.com" okSrc okTgt
      = .ok (headerRecord :: (enumIdentities okSrc ["app"]).map
          fun p => recordOf "https://source.example.com" "https://target.example.com"
            okSrc okTgt p.1 p.2) := by
  have h : runSync "https://source.example.com" "https://target.example.com" okSrc okTgt
      = .ok (headerRecord ::
          [recordOf "https://source.example.com" "https://target.example.com"
            okSrc okTgt "app" "v1",
           recordOf "https://source.example.com" "https://target.example.com"
            okSrc okTgt "app" "v2"]) := by rfl
  have h2 := run_report_order "https://source.example.com" "https://target.example.com"
    okSrc okTgt ["app"] _ rfl h
  rw [h, h2]
